import Mathlib

/-!
Verification of the seq2seq transformer repository
(`seq2seq/models/transformer.py`, `seq2seq/models/modules/normalization.py`,
`seq2seq/datasets/wmt.py`).

The Python modules are shallowly embedded: parameter tensors are modelled as
heap identifiers allocated by an explicit counter (so aliasing introduced by
`a.weight = b.weight` is visible), tensors are nested lists, and module
constructors / forward passes become pure Lean functions mirroring the source
line by line.
-/

namespace Seq2Seq

/-! ## Parameter store: tensors as heap identifiers

PyTorch parameter registration attaches tensor objects to modules; the
statement `self.embedder.weight = self.classifier.weight` makes two modules
reference the SAME tensor object.  We model tensor objects by identifiers
(`ℕ`) drawn from an allocation counter, and a heap mapping identifiers to
values; distinct allocations yield distinct identifiers.
-/

/-- Allocate one fresh tensor identifier from the counter. -/
def alloc (c : ℕ) : ℕ × ℕ := (c, c + 1)

/-- A heap of tensor values indexed by identifier; `V` is the value type. -/
def Store (V : Type) : Type := ℕ → V

/-- Writing a value to one identifier of the heap (an in-place update of that
parameter tensor, as an optimizer step would perform). -/
def Store.write {V : Type} (s : Store V) (i : ℕ) (v : V) : Store V :=
  fun j => if j = i then v else s j

/-- Reading a tensor value back through an identifier. -/
def Store.read {V : Type} (s : Store V) (i : ℕ) : V := s i

/-! ## `TransformerAttentionDecoder.__init__` / `Transformer.__init__`
(transformer.py lines 150-229): only the parameter-allocation skeleton is
relevant to weight tying.  The decoder allocates `self.embedder.weight`, then
`self.classifier.weight`, and when `tie_embedding` holds executes
`self.embedder.weight = self.classifier.weight`.  The `Transformer` wrapper
builds the encoder (allocating its own embedding weight) and the decoder, and
when `tie_embedding` holds executes
`self.encoder.embedder.weight = self.decoder.classifier.weight`. -/

structure DecoderParams where
  embedder_weight : ℕ
  classifier_weight : ℕ
  deriving Repr, DecidableEq

structure EncoderParams where
  embedder_weight : ℕ
  deriving Repr, DecidableEq

structure TransformerParams where
  encoder : EncoderParams
  decoder : DecoderParams
  deriving Repr, DecidableEq

/-- `TransformerAttentionDecoder.__init__`: allocates the embedding weight and
the classifier weight, then ties them when `tie_embedding` is set.  Returns
the constructed parameter references together with the advanced counter. -/
def TransformerAttentionDecoder.init (tie_embedding : Bool) (c : ℕ) :
    DecoderParams × ℕ :=
  let (ew, c) := alloc c
  let (cw, c) := alloc c
  let ew := if tie_embedding then cw else ew
  ({ embedder_weight := ew, classifier_weight := cw }, c)

/-- `TransformerAttentionEncoder.__init__`: allocates the encoder embedding
weight. -/
def TransformerAttentionEncoder.init (c : ℕ) : EncoderParams × ℕ :=
  let (ew, c) := alloc c
  ({ embedder_weight := ew }, c)

/-- `Transformer.__init__`: `decoder.setdefault('tie_embedding', tie_embedding)`
means the decoder is built with the override `decoder_tie` when the caller
supplied one in the `decoder` kwargs dict, and with `tie_embedding` otherwise;
afterwards, when `tie_embedding` is set, the encoder embedding weight is
re-bound to the decoder classifier weight. -/
def Transformer.init (tie_embedding : Bool) (decoder_tie : Option Bool)
    (c : ℕ) : TransformerParams × ℕ :=
  let (enc, c) := TransformerAttentionEncoder.init c
  let (dec, c) := TransformerAttentionDecoder.init
    (decoder_tie.getD tie_embedding) c
  let enc := if tie_embedding then
    { enc with embedder_weight := dec.classifier_weight } else enc
  ({ encoder := enc, decoder := dec }, c)

end Seq2Seq

namespace Seq2Seq.WMT

/-! ## `WMT16_de_en.__init__` (wmt.py lines 11-61)

The construction is pure string manipulation plus one call to the parent
`MultiLanguageDataset` constructor, which lives outside the four source files;
we abstract that constructor as a function argument `mkML` from options to a
dataset record exposing the three attributes the code reads back
(`tokenizers`, `code_files`, `vocab_files`).

The local Python variable `prefix` of the non-train branch is modelled as an
`Option String` starting out unassigned (`none`); reading it unassigned at
`options['prefix'] = prefix` is Python's `UnboundLocalError`, modelled by the
`Except` error branch. -/

/-- The option dictionary handed to the `MultiLanguageDataset` constructor
(the fields the claims are about; `pfx` models the `prefix` entry). -/
structure MLOptions where
  pfx : String
  tokenization : String
  num_symbols : ℕ
  code_files : Option String
  vocab_files : Option String
  tokenizers : Option String
  load_data : Bool
  deriving Repr, DecidableEq

/-- The attributes of a constructed `MultiLanguageDataset` that
`WMT16_de_en.__init__` reads back via `getattr(train_data, _, None)`. -/
structure MLDataset where
  tokenizers : Option String
  code_files : Option String
  vocab_files : Option String
  deriving Repr, DecidableEq

/-- `WMT16_de_en.__init__`, returning the option dictionary finally passed to
`super().__init__(**options)`, or the uncaught Python exception.  `mkML`
stands for the `MultiLanguageDataset` constructor used to build the train
dataset in the non-train branch. -/
def WMT16_de_en.init (mkML : MLOptions → MLDataset)
    (root split : String) (moses_pretok : Bool)
    (tokenization : String) (num_symbols : ℕ)
    (code_files vocab_files tokenizers : Option String) :
    Except String MLOptions :=
  let pretok := if moses_pretok then ".tok" else ""
  let train_pfx := root ++ "/train" ++ pretok ++ ".clean"
  let options : MLOptions :=
    { pfx := train_pfx, tokenization := tokenization,
      num_symbols := num_symbols, code_files := code_files,
      vocab_files := vocab_files, tokenizers := tokenizers,
      load_data := false }
  let train_options := options
  if split = "train" then
    .ok train_options
  else
    let train_data := mkML train_options
    let options := { options with
      tokenizers := train_data.tokenizers,
      code_files := train_data.code_files,
      vocab_files := train_data.vocab_files }
    let pfx? : Option String :=
      if split = "dev" then
        some (root ++ "/newstest2014" ++ pretok ++ ".clean")
      else if split = "test" then
        some (root ++ "/newstest2016" ++ pretok ++ ".clean")
      else
        none
    match pfx? with
    | some p => .ok { options with pfx := p }
    | none => .error "UnboundLocalError"

/-- The train-prefix options dictionary, for stating the reuse property. -/
def WMT16_de_en.trainOptions (root : String) (moses_pretok : Bool)
    (tokenization : String) (num_symbols : ℕ)
    (code_files vocab_files tokenizers : Option String) : MLOptions :=
  { pfx := root ++ "/train" ++ (if moses_pretok then ".tok" else "") ++ ".clean",
    tokenization := tokenization, num_symbols := num_symbols,
    code_files := code_files, vocab_files := vocab_files,
    tokenizers := tokenizers, load_data := false }

end Seq2Seq.WMT

namespace Seq2Seq.Norm

/-! ## `LayerNorm1d` (normalization.py lines 7-38)

Tensors of shape `(b, t, f)` are nested lists; all element arithmetic is done
in `ℚ`, with the (strictly monotone, transcendental) square root left abstract
as a function argument `sqrt` applied at exactly the point the code applies
`.sqrt()`.  `mean(2)`, `.view(b, t, 1).expand_as(inputs)` followed by an
elementwise operation amount to combining each feature vector with its own
per-position scalar, which the embedding performs with `zipWith` at the two
outer levels, mirroring the broadcast. -/

/-- A `(b, t, f)` tensor. -/
abbrev T3 : Type := List (List (List ℚ))

/-- Mean over a feature vector, as `mean(2)` computes it at one `(b, t)`
position: the sum divided by the size of the reduced dimension. -/
def vmean (v : List ℚ) : ℚ := v.sum / v.length

/-- The `LayerNorm1d` module: `eps`, the `affine` flag and, when affine, the
learnable `weight` and `bias` vectors of length `num_features`. -/
structure LayerNorm1d where
  eps : ℚ
  num_features : ℕ
  affine : Bool
  weight : List ℚ
  bias : List ℚ

/-- `LayerNorm1d.forward`, following the source statement by statement:
mean over dim 2, broadcast subtraction, biased variance over dim 2 plus `eps`
under the square root, broadcast division, then the affine transformation
with `weight`/`bias` broadcast over the two leading dimensions. -/
def LayerNorm1d.forward (sqrt : ℚ → ℚ) (m : LayerNorm1d) (inputs : T3) : T3 :=
  let mean := inputs.map (fun plane => plane.map vmean)
  let input_centered := inputs.zipWith
    (fun plane mplane => plane.zipWith
      (fun v c => v.map (fun a => a - c)) mplane) mean
  let std := input_centered.map (fun plane => plane.map
    (fun v => sqrt (vmean (v.map (fun a => a ^ 2)) + m.eps)))
  let output := input_centered.zipWith
    (fun plane splane => plane.zipWith
      (fun v s => v.map (fun a => a / s)) splane) std
  if m.affine then
    output.map (fun plane => plane.map (fun v =>
      (v.zipWith (fun a w => a * w) m.weight).zipWith
        (fun a b => a + b) m.bias))
  else
    output

/-- The claim's formula at one `(batch, time)` position: with `m` the mean of
the feature vector `row`, each entry becomes
`(a - m) / sqrt(mean((row - m)^2) + eps)`. -/
def layerNormSpecRow (sqrt : ℚ → ℚ) (eps : ℚ) (row : List ℚ) : List ℚ :=
  let mu := vmean row
  row.map (fun a =>
    (a - mu) / sqrt (vmean (row.map (fun b => (b - mu) ^ 2)) + eps))

/-- The claim's description of the whole forward pass: the per-position
formula at every `(batch, time)` position, then, when affine, elementwise
multiplication by `weight` and addition of `bias`. -/
def layerNormSpec (sqrt : ℚ → ℚ) (m : LayerNorm1d) (inputs : T3) : T3 :=
  inputs.map (fun plane => plane.map (fun v =>
    let o := layerNormSpecRow sqrt m.eps v
    if m.affine then
      (o.zipWith (fun a w => a * w) m.weight).zipWith
        (fun a b => a + b) m.bias
    else o))

end Seq2Seq.Norm

namespace Seq2Seq.Pos

/-! ## `positional_embedding` (transformer.py lines 14-33)

Real-valued tensors are nested lists of `ℝ`; `list(x.size())` only inspects
the nesting lengths.  The function builds `inv_timescales[i] =
exp(-i * log_timescale_increment) * min_timescale`, the outer product
`scaled_time[p][i] = p * inv_timescales[i]`, and concatenates `sin` and `cos`
of it along dim 1 before broadcasting over the batch. -/

/-- A real `(batch, length, channels)` tensor. -/
abbrev RT3 : Type := List (List (List ℝ))

/-- The `(batch, length, channels)` triple that `list(x.size())` yields. -/
def size3 (x : RT3) : ℕ × ℕ × ℕ :=
  (x.length, (x.headD []).length, ((x.headD []).headD []).length)

/-- `positional_embedding` (the successful path, after the assertion):
follows the source line by line. -/
noncomputable def positional_embedding (x : RT3)
    (min_timescale max_timescale : ℝ) : RT3 :=
  let batch := (size3 x).1
  let length := (size3 x).2.1
  let channels := (size3 x).2.2
  let num_timescales := channels / 2
  let log_timescale_increment :=
    Real.log (max_timescale / min_timescale) / ((num_timescales : ℝ) - 1)
  let inv_timescales := (List.range num_timescales).map
    (fun (i : ℕ) => Real.exp (-(i : ℝ) * log_timescale_increment) *
      min_timescale)
  let scaled_time := (List.range length).map
    (fun (p : ℕ) => inv_timescales.map (fun s => (p : ℝ) * s))
  let signal := scaled_time.map
    (fun row => row.map Real.sin ++ row.map Real.cos)
  List.replicate batch signal

/-- The claim's timescale family: a geometric progression
`s_i = min_timescale * (max_timescale/min_timescale) ^ (-i / (channels/2 - 1))`
(real exponentiation). -/
noncomputable def timescaleSpec (mn mx : ℝ) (half i : ℕ) : ℝ :=
  mn * (mx / mn) ^ (-(i : ℝ) / ((half : ℝ) - 1))

/-- The claim's description of the output: identical across the batch, and at
position `p` the concatenation of `sin (p * s_i)` for `i < channels/2`
followed by `cos (p * s_i)`. -/
noncomputable def positional_embedding_spec (batch length channels : ℕ)
    (mn mx : ℝ) : RT3 :=
  List.replicate batch ((List.range length).map (fun (p : ℕ) =>
    ((List.range (channels / 2)).map
      (fun (i : ℕ) =>
        Real.sin ((p : ℝ) * timescaleSpec mn mx (channels / 2) i))) ++
    ((List.range (channels / 2)).map
      (fun (i : ℕ) =>
        Real.cos ((p : ℝ) * timescaleSpec mn mx (channels / 2) i)))))

/-- Failure modes of the Python function, in source order. -/
inductive PosEmbError where
  | assertionError
  | zeroDivisionError
  deriving Repr, DecidableEq

/-- Python-level evaluation of `positional_embedding` with its failure modes
in source order: first `assert channels % 2 == 0`, then the float division by
`num_timescales - 1.0` in `log_timescale_increment`, which raises
`ZeroDivisionError` exactly when `num_timescales == 1`, i.e. `channels == 2`
among even channel counts. -/
noncomputable def positional_embedding_run (x : RT3) (mn mx : ℝ) :
    Except PosEmbError RT3 :=
  let channels := (size3 x).2.2
  if channels % 2 ≠ 0 then .error .assertionError
  else if channels / 2 = 1 then .error .zeroDivisionError
  else .ok (positional_embedding x mn mx)

end Seq2Seq.Pos

namespace Seq2Seq.Dec

/-! ## `DecoderBlock` (transformer.py lines 70-112)

The block's sub-modules (attention, dropout, layer norms, feed-forward) are
abstract functions over an abstract tensor type `T` with an addition for the
in-place residual `.add_(res)`; the attention constructor `mkAttention` is
applied to the `causal` keyword argument exactly as the source applies
`MultiHeadAttention(..., causal=...)`.  The layer norms exist only when
`weight_norm` is off (the source then never executes `self.lnorm1 = ...`, and
`forward` branches on `hasattr(self, 'lnorm1')`), which the embedding renders
as `Option`. -/

/-- A `MultiHeadAttention` sub-module: its `causal` flag and its forward
function `(q, k, v) ↦ (output, attention scores)`. -/
structure MultiHeadAttention (T A : Type) where
  causal : Bool
  core : T → T → T → T × A

/-- The `DecoderBlock` module state after `__init__`. -/
structure DecoderBlock (T A : Type) where
  weight_norm : Bool
  lnorm1 : Option (T → T)
  lnorm2 : Option (T → T)
  lnorm3 : Option (T → T)
  dropout : T → T
  attention : MultiHeadAttention T A
  masked_attention : MultiHeadAttention T A
  fc : T → T

/-- `DecoderBlock.__init__`: three layer norms only when `weight_norm` is
off, a non-causal attention, a causal `masked_attention`, and the
feed-forward stack `fc`. -/
def DecoderBlock.init (T A : Type) (weight_norm : Bool)
    (mkLnorm : ℕ → T → T) (dropout : T → T)
    (mkAttention : Bool → T → T → T → T × A) (fc : T → T) :
    DecoderBlock T A :=
  { weight_norm := weight_norm
    lnorm1 := if weight_norm then none else some (mkLnorm 1)
    lnorm2 := if weight_norm then none else some (mkLnorm 2)
    lnorm3 := if weight_norm then none else some (mkLnorm 3)
    dropout := dropout
    attention := { causal := false, core := mkAttention false }
    masked_attention := { causal := true, core := mkAttention true }
    fc := fc }

/-- `x = self.lnormN(x) if hasattr(self, 'lnormN') else x`. -/
def applyNorm {T : Type} (o : Option (T → T)) (x : T) : T :=
  match o with
  | some f => f x
  | none => x

/-- `DecoderBlock.forward`, statement by statement: causal self-attention,
dropout-residual add, norm; attention over the encoder context,
dropout-residual add, norm; feed-forward, dropout-residual add, norm;
returns the block output and the encoder attention scores. -/
def DecoderBlock.forward {T A : Type} [Add T] (blk : DecoderBlock T A)
    (inputs context : T) : T × A :=
  let x := inputs
  let res := x
  let x := (blk.masked_attention.core x x x).1
  let x := blk.dropout x + res
  let x := applyNorm blk.lnorm1 x
  let res := x
  let pair := blk.attention.core x context context
  let x := blk.dropout pair.1 + res
  let x := applyNorm blk.lnorm2 x
  let res := x
  let x := blk.fc x
  let x := blk.dropout x + res
  let x := applyNorm blk.lnorm3 x
  (x, pair.2)

/-- The claim's description of the data flow: first causal (future-masked)
self-attention on the decoder inputs, then non-causal attention from the
decoder state to the encoder context, in that order, each followed by a
dropout-residual add and, when `weight_norm` is off, a layer normalization,
before the feed-forward sub-layer (treated the same way). -/
def decoderBlockSpec {T A : Type} [Add T] (weight_norm : Bool)
    (mkLnorm : ℕ → T → T) (dropout : T → T)
    (mkAttention : Bool → T → T → T → T × A) (fc : T → T)
    (inputs context : T) : T × A :=
  let ln := fun (i : ℕ) (x : T) => if weight_norm then x else mkLnorm i x
  let selfOut := (mkAttention true inputs inputs inputs).1
  let x1 := ln 1 (dropout selfOut + inputs)
  let crossPair := mkAttention false x1 context context
  let x2 := ln 2 (dropout crossPair.1 + x1)
  let x3 := ln 3 (dropout (fc x2) + x2)
  (x3, crossPair.2)

end Seq2Seq.Dec

namespace Seq2Seq.Enc

/-! ## `TransformerAttentionEncoder.forward` (transformer.py lines 134-147)
and `EncoderBlock.set_mask` (lines 53-55)

Token inputs are a `(batch, time)` integer tensor, masks a `(batch, time)`
boolean tensor.  Each encoder block is its pair of attention masks (set via
`set_mask`, which stores the same mask as query mask and key mask) together
with an abstract transformation `core` that may read both masks; the
embedding pipeline before the blocks (embedding lookup, scaling, positional
addition, dropout) is an abstract function `embed`.  `forward` mutates the
blocks' masks, threads the activations, and returns a `State`. -/

/-- A `(batch, time)` boolean padding mask. -/
abbrev Mask : Type := List (List Bool)

/-- One `EncoderBlock`: its current attention masks and its transformation,
which may depend on the masks. -/
structure EncoderBlock (T : Type) where
  mask_q : Option Mask
  mask_k : Option Mask
  core : Option Mask → Option Mask → T → T

/-- `EncoderBlock.set_mask`: stores the same mask as the attention's query
mask and key mask. -/
def EncoderBlock.set_mask {T : Type} (b : EncoderBlock T)
    (m : Option Mask) : EncoderBlock T :=
  { b with mask_q := m, mask_k := m }

/-- `EncoderBlock.forward` (its attention reads the stored masks). -/
def EncoderBlock.forward {T : Type} (b : EncoderBlock T) (x : T) : T :=
  b.core b.mask_q b.mask_k x

/-- The `State(outputs=..., mask=..., batch_first=True)` record returned by
the encoder. -/
structure State (T : Type) where
  outputs : T
  mask : Option Mask
  batch_first : Bool

/-- The encoder module: its `mask_symbol`, the embedding pipeline applied
before the blocks, and the list of blocks. -/
structure TransformerAttentionEncoder (T : Type) where
  mask_symbol : Option ℤ
  embed : List (List ℤ) → T
  blocks : List (EncoderBlock T)

/-- `TransformerAttentionEncoder.forward`: computes the padding mask
(`inputs.eq(self.mask_symbol)` when `mask_symbol` is present, else `None`),
embeds the inputs, then for each block calls `set_mask` and applies it;
returns the mutated encoder together with
`State(outputs=x, mask=padding_mask, batch_first=True)`. -/
def TransformerAttentionEncoder.forward {T : Type}
    (e : TransformerAttentionEncoder T) (inputs : List (List ℤ)) :
    TransformerAttentionEncoder T × State T :=
  let padding_mask : Option Mask :=
    match e.mask_symbol with
    | some s => some (inputs.map (fun row => row.map (fun t => t == s)))
    | none => none
  let x := e.embed inputs
  let step := fun (acc : List (EncoderBlock T) × T) (blk : EncoderBlock T) =>
    let blk := blk.set_mask padding_mask
    (acc.1 ++ [blk], blk.forward acc.2)
  let folded := e.blocks.foldl step ([], x)
  ({ e with blocks := folded.1 },
   { outputs := folded.2, mask := padding_mask, batch_first := true })

end Seq2Seq.Enc

/-! ## Theorems -/

namespace Seq2Seq

theorem Store.read_write_same {V : Type} (s : Store V) (i : ℕ) (v : V) :
    (s.write i v).read i = v := by
  simp [Store.write, Store.read]

end Seq2Seq

namespace Seq2Seq.Norm

/-- Combining a list with its own image under a map: the broadcast pattern
`x OP x.reduce(2).view(b, t, 1).expand_as(x)` at one nesting level. -/
theorem zipWith_map_self {α β γ : Type} (f : α → β → γ) (g : α → β) :
    ∀ l : List α, l.zipWith f (l.map g) = l.map (fun a => f a (g a)) := by
  intro l
  induction l with
  | nil => rfl
  | cons a t ih => simp [List.zipWith, ih]

/-- One `(batch, time)` position of the un-affine forward pass equals the
claim's per-position formula. -/
theorem forwardRow_eq_specRow (sqrt : ℚ → ℚ) (eps : ℚ) (v : List ℚ) :
    ((v.map (fun a => a - vmean v)).map
      (fun a => a / sqrt (vmean ((v.map (fun b => b - vmean v)).map
        (fun a => a ^ 2)) + eps))) = layerNormSpecRow sqrt eps v := by
  simp [layerNormSpecRow, List.map_map]
  intro a _
  rfl

/-- C2: `LayerNorm1d.forward` returns, at each `(batch, time)` position,
`(x - m) / sqrt(mean((x - m)^2) + eps)` with `m` the biased mean over the
feature dimension and the biased (divide by `f`) variance, then applies the
elementwise affine transformation when `affine = True`. -/
theorem layerNorm_forward_eq_spec (sqrt : ℚ → ℚ) (m : LayerNorm1d) (x : T3) :
    m.forward sqrt x = layerNormSpec sqrt m x := by
  simp only [LayerNorm1d.forward, layerNormSpec, zipWith_map_self]
  cases hm : m.affine
  case false =>
    simp only [hm, Bool.false_eq_true, if_false, List.map_map]
    refine List.map_congr_left fun plane _ => ?_
    simp only [Function.comp, List.map_map]
    refine List.map_congr_left fun v _ => ?_
    simp only [Function.comp]
    exact forwardRow_eq_specRow sqrt m.eps v
  case true =>
    simp only [hm, if_true, List.map_map]
    refine List.map_congr_left fun plane _ => ?_
    simp only [Function.comp, List.map_map]
    refine List.map_congr_left fun v _ => ?_
    simp only [Function.comp]
    rw [forwardRow_eq_specRow]

end Seq2Seq.Norm

namespace Seq2Seq

/-- C1: weight tying shares one parameter tensor between distinct layers.
For every `TransformerAttentionDecoder` constructed with `tie_embedding=True`
(at any allocation counter `c`), the embedding weight and the classifier
weight are the same tensor, so a write through the classifier reference is
seen through the embedding reference; and for every `Transformer` constructed
with `tie_embedding=True` (any decoder-kwarg override `dt`, any counter `c2`),
the encoder embedding weight is that same tensor as well. -/
theorem weight_tying_shares_parameters (c c2 : ℕ) (dt : Option Bool)
    (s : Store ℤ) (v : ℤ) :
    ((TransformerAttentionDecoder.init true c).1.embedder_weight =
      (TransformerAttentionDecoder.init true c).1.classifier_weight) ∧
    ((s.write (TransformerAttentionDecoder.init true c).1.classifier_weight
        v).read (TransformerAttentionDecoder.init true c).1.embedder_weight
      = v) ∧
    ((Transformer.init true dt c2).1.encoder.embedder_weight =
      (Transformer.init true dt c2).1.decoder.classifier_weight) ∧
    ((s.write (Transformer.init true dt c2).1.decoder.classifier_weight
        v).read (Transformer.init true dt c2).1.encoder.embedder_weight
      = v) := by
  refine ⟨rfl, ?_, rfl, ?_⟩ <;>
    simp [TransformerAttentionDecoder.init, Transformer.init,
      TransformerAttentionEncoder.init, alloc, Store.write, Store.read]

end Seq2Seq

namespace Seq2Seq.WMT

/-- C6: the split argument determines the corpus file deterministically
(`train{pretok}.clean`, `newstest2014{pretok}.clean`,
`newstest2016{pretok}.clean` under `root`, with `pretok = ".tok"` exactly
when `moses_pretok`), and every non-train split takes `tokenizers`,
`code_files` and `vocab_files` from the dataset built over the train
prefix. -/
theorem wmt_split_file_mapping (mkML : MLOptions → MLDataset)
    (root : String) (mp : Bool) (tk : String) (ns : ℕ)
    (cf vf tks : Option String) :
    (WMT16_de_en.trainOptions root mp tk ns cf vf tks).pfx =
      root ++ "/train" ++ (if mp then ".tok" else "") ++ ".clean" ∧
    WMT16_de_en.init mkML root "train" mp tk ns cf vf tks =
      .ok (WMT16_de_en.trainOptions root mp tk ns cf vf tks) ∧
    WMT16_de_en.init mkML root "dev" mp tk ns cf vf tks =
      .ok { WMT16_de_en.trainOptions root mp tk ns cf vf tks with
            pfx := root ++ "/newstest2014" ++
              (if mp then ".tok" else "") ++ ".clean",
            tokenizers :=
              (mkML (WMT16_de_en.trainOptions root mp tk ns cf vf tks)).tokenizers,
            code_files :=
              (mkML (WMT16_de_en.trainOptions root mp tk ns cf vf tks)).code_files,
            vocab_files :=
              (mkML (WMT16_de_en.trainOptions root mp tk ns cf vf tks)).vocab_files } ∧
    WMT16_de_en.init mkML root "test" mp tk ns cf vf tks =
      .ok { WMT16_de_en.trainOptions root mp tk ns cf vf tks with
            pfx := root ++ "/newstest2016" ++
              (if mp then ".tok" else "") ++ ".clean",
            tokenizers :=
              (mkML (WMT16_de_en.trainOptions root mp tk ns cf vf tks)).tokenizers,
            code_files :=
              (mkML (WMT16_de_en.trainOptions root mp tk ns cf vf tks)).code_files,
            vocab_files :=
              (mkML (WMT16_de_en.trainOptions root mp tk ns cf vf tks)).vocab_files } := by
  refine ⟨rfl, rfl, rfl, rfl⟩

end Seq2Seq.WMT

namespace Seq2Seq.Pos

/-- The computed inverse timescale equals the claim's geometric-progression
form, by `exp (log a * y) = a ^ y` for positive `a`. -/
theorem inv_timescale_eq_spec (mn mx : ℝ) (hmn : 0 < mn) (hmx : 0 < mx)
    (half i : ℕ) :
    Real.exp (-(i : ℝ) *
        (Real.log (mx / mn) / ((half : ℝ) - 1))) * mn =
      timescaleSpec mn mx half i := by
  unfold timescaleSpec
  rw [Real.rpow_def_of_pos (div_pos hmx hmn), mul_comm]
  congr 1
  ring_nf

/-- C3: for every input of shape `(b, l, c)` with `c` even and `c ≥ 4` and
positive timescale bounds, `positional_embedding` returns the sinusoidal
scheme: identical across the batch, at position `p` the concatenation of
`sin (p * s_i)` then `cos (p * s_i)` with the geometric timescales
`s_i = mn * (mx/mn) ^ (-i/(c/2 - 1))`; the result has the input's shape. -/
theorem positional_embedding_eq_spec (x : RT3) (b l c : ℕ) (mn mx : ℝ)
    (hs : size3 x = (b, l, c)) (hc2 : c % 2 = 0) (hc4 : 4 ≤ c)
    (hmn : 0 < mn) (hmx : 0 < mx) :
    positional_embedding x mn mx = positional_embedding_spec b l c mn mx ∧
    (positional_embedding x mn mx).map
        (fun plane => (plane.length, plane.map List.length)) =
      List.replicate b (l, List.replicate l c) := by
  have hmain : positional_embedding x mn mx =
      positional_embedding_spec b l c mn mx := by
    unfold positional_embedding positional_embedding_spec
    rw [hs]
    simp only [List.map_map]
    congr 1
    refine List.map_congr_left fun p _ => ?_
    simp only [List.map_map, Function.comp]
    congr 1 <;>
      refine List.map_congr_left fun i _ => ?_ <;>
      simp only [Function.comp_apply] <;>
      rw [inv_timescale_eq_spec mn mx hmn hmx (c / 2) i]
  refine ⟨hmain, ?_⟩
  rw [hmain]
  unfold positional_embedding_spec
  have hhalf : c / 2 + c / 2 = c := by omega
  simp only [List.map_replicate, List.map_map, Function.comp_def,
    List.length_append, List.length_map, List.length_range, hhalf]
  rw [show (List.range l).map (fun _ => c) = List.replicate l c by
    simp [List.map_const', List.length_range]]

/-- Witness for C3 at a concrete `(1, 2, 4)` tensor with the default
timescale bounds. -/
theorem positional_embedding_eq_spec_witness :
    positional_embedding [[[1, 2, 3, 4], [5, 6, 7, 8]]] 1 10000 =
      positional_embedding_spec 1 2 4 1 10000 :=
  (positional_embedding_eq_spec [[[1, 2, 3, 4], [5, 6, 7, 8]]] 1 2 4 1 10000
    rfl rfl (by norm_num) (by norm_num) (by norm_num)).1

/-- C8: an odd channel count fails the `assert channels % 2 == 0`; an even
channel count of at least 4 passes the assertion and the division by
`num_timescales - 1`, and the value is computed; a channel count of exactly 2
reaches the division with `num_timescales - 1 == 0` and raises
`ZeroDivisionError`. -/
theorem positional_embedding_run_safety (x x2 : RT3) (mn mx : ℝ)
    (h2 : (size3 x2).2.2 = 2) :
    ((size3 x).2.2 % 2 = 1 →
      positional_embedding_run x mn mx = .error .assertionError) ∧
    ((size3 x).2.2 % 2 = 0 → 4 ≤ (size3 x).2.2 →
      positional_embedding_run x mn mx = .ok (positional_embedding x mn mx)) ∧
    positional_embedding_run x2 mn mx = .error .zeroDivisionError := by
  unfold positional_embedding_run
  refine ⟨fun hodd => ?_, fun heven h4 => ?_, ?_⟩
  · simp [hodd]
  · have hne : ¬ (size3 x).2.2 / 2 = 1 := by omega
    simp [heven, hne]
  · simp [h2]

/-- Witness for C8 at concrete tensors with 3, 4 and 2 channels. -/
theorem positional_embedding_run_safety_witness :
    positional_embedding_run [[[1, 2, 3]]] 1 10000 =
      .error .assertionError ∧
    positional_embedding_run [[[1, 2, 3, 4]]] 1 10000 =
      .ok (positional_embedding [[[1, 2, 3, 4]]] 1 10000) ∧
    positional_embedding_run [[[1, 2]]] 1 10000 =
      .error .zeroDivisionError :=
  ⟨(positional_embedding_run_safety [[[1, 2, 3]]] [[[1, 2]]] 1 10000
      rfl).1 rfl,
   (positional_embedding_run_safety [[[1, 2, 3, 4]]] [[[1, 2]]] 1 10000
      rfl).2.1 rfl (by decide),
   (positional_embedding_run_safety [[[1, 2, 3]]] [[[1, 2]]] 1 10000
      rfl).2.2⟩

/-- C10: the output of `positional_embedding` depends only on the shape of
its tensor argument and the two timescale arguments, never on the element
values. -/
theorem positional_embedding_shape_only (x1 x2 : RT3) (mn mx : ℝ)
    (h : size3 x1 = size3 x2) :
    positional_embedding x1 mn mx = positional_embedding x2 mn mx := by
  unfold positional_embedding
  rw [h]

/-- Witness for C10: two same-shape tensors with different element values. -/
theorem positional_embedding_shape_only_witness :
    size3 [[[1, 2, 3, 4]], [[5, 6, 7, 8]]] =
      size3 [[[9, 9, 9, 9]], [[0, 1, 0, 1]]] ∧
    positional_embedding [[[1, 2, 3, 4]], [[5, 6, 7, 8]]] 1 10000 =
      positional_embedding [[[9, 9, 9, 9]], [[0, 1, 0, 1]]] 1 10000 :=
  ⟨rfl, positional_embedding_shape_only
    [[[1, 2, 3, 4]], [[5, 6, 7, 8]]] [[[9, 9, 9, 9]], [[0, 1, 0, 1]]]
    1 10000 rfl⟩

end Seq2Seq.Pos

namespace Seq2Seq.Dec

/-- C4: every `DecoderBlock` carries a causal `masked_attention` and a
non-causal `attention`, and its forward pass is exactly the claim's
composition: causal self-attention first, then attention to the encoder
context, each followed by dropout-residual add and (when `weight_norm` is
off) layer normalization, before the feed-forward sub-layer. -/
theorem decoderBlock_order_and_masking (T A : Type) [Add T]
    (weight_norm : Bool) (mkLnorm : ℕ → T → T) (dropout : T → T)
    (mkAttention : Bool → T → T → T → T × A) (fc : T → T)
    (inputs context : T) :
    (DecoderBlock.init T A weight_norm mkLnorm dropout mkAttention
      fc).masked_attention.causal = true ∧
    (DecoderBlock.init T A weight_norm mkLnorm dropout mkAttention
      fc).attention.causal = false ∧
    (DecoderBlock.init T A weight_norm mkLnorm dropout mkAttention
        fc).forward inputs context =
      decoderBlockSpec weight_norm mkLnorm dropout mkAttention fc
        inputs context := by
  refine ⟨rfl, rfl, ?_⟩
  unfold DecoderBlock.forward decoderBlockSpec DecoderBlock.init
  cases weight_norm <;> simp [applyNorm]

/-- Witness for C4 at a concrete instantiation (`T = A = ℤ`), with
`weight_norm` off. -/
theorem decoderBlock_order_and_masking_witness :
    (DecoderBlock.init ℤ ℤ false (fun i x => x + i) (fun x => 2 * x)
      (fun c q k v => (q + k + v + if c then 1 else 0, q - k))
      (fun x => x * x)).masked_attention.causal = true ∧
    (DecoderBlock.init ℤ ℤ false (fun i x => x + i) (fun x => 2 * x)
      (fun c q k v => (q + k + v + if c then 1 else 0, q - k))
      (fun x => x * x)).attention.causal = false ∧
    (DecoderBlock.init ℤ ℤ false (fun i x => x + i) (fun x => 2 * x)
        (fun c q k v => (q + k + v + if c then 1 else 0, q - k))
        (fun x => x * x)).forward 5 7 =
      decoderBlockSpec false (fun (i : ℕ) (x : ℤ) => x + i)
        (fun x => 2 * x)
        (fun c q k v => (q + k + v + if c then 1 else 0, q - k))
        (fun x => x * x) 5 7 :=
  decoderBlock_order_and_masking ℤ ℤ false (fun i x => x + i)
    (fun x => 2 * x) (fun c q k v => (q + k + v + if c then 1 else 0, q - k))
    (fun x => x * x) 5 7

end Seq2Seq.Dec

namespace Seq2Seq.Enc

/-- Unrolling the encoder's block loop: the blocks end up `set_mask`-ed with
the padding mask and the activations are the fold of the mask-reading
transformations. -/
theorem encoder_fold_unroll {T : Type} (pm : Option Mask)
    (bs : List (EncoderBlock T)) :
    ∀ (acc : List (EncoderBlock T)) (x : T),
      (bs.foldl (fun acc blk =>
          let blk := blk.set_mask pm
          (acc.1 ++ [blk], blk.forward acc.2)) (acc, x)) =
        (acc ++ bs.map (fun b => b.set_mask pm),
         bs.foldl (fun x b => b.core pm pm x) x) := by
  induction bs with
  | nil => intro acc x; simp
  | cons b t ih =>
    intro acc x
    simp only [List.foldl_cons, List.map_cons]
    rw [ih]
    simp [EncoderBlock.set_mask, EncoderBlock.forward]

/-- Every block of a `set_mask`-ed block list carries the mask as both query
mask and key mask. -/
theorem forall_set_mask {T : Type} (pm : Option Mask) :
    ∀ bs : List (EncoderBlock T),
      (bs.map (fun b => b.set_mask pm)).Forall
        (fun b => b.mask_q = pm ∧ b.mask_k = pm)
  | [] => trivial
  | b :: t => by
    simp only [List.map_cons, List.forall_cons]
    exact ⟨⟨rfl, rfl⟩, forall_set_mask pm t⟩

/-- C5: on every forward pass the padding mask is exactly the positions of
the input equal to `mask_symbol` when the symbol is present and `None`
otherwise; it is installed as both the query and key mask of every encoder
block; and the returned `State` carries this mask, the final block output
(the fold of the blocks over the embedded input), and `batch_first = True`. -/
theorem encoder_forward_masks (T : Type) (e : TransformerAttentionEncoder T)
    (inputs : List (List ℤ)) :
    ((e.forward inputs).2.mask = e.mask_symbol.map
      (fun s => inputs.map (fun row => row.map (fun t => t == s)))) ∧
    ((e.forward inputs).1.blocks.Forall (fun b =>
      b.mask_q = e.mask_symbol.map
        (fun s => inputs.map (fun row => row.map (fun t => t == s))) ∧
      b.mask_k = e.mask_symbol.map
        (fun s => inputs.map (fun row => row.map (fun t => t == s))))) ∧
    ((e.forward inputs).1.blocks.length = e.blocks.length) ∧
    ((e.forward inputs).2.outputs = e.blocks.foldl
      (fun x b => b.core
        (e.mask_symbol.map
          (fun s => inputs.map (fun row => row.map (fun t => t == s))))
        (e.mask_symbol.map
          (fun s => inputs.map (fun row => row.map (fun t => t == s)))) x)
      (e.embed inputs)) ∧
    ((e.forward inputs).2.batch_first = true) := by
  have hpm : (match e.mask_symbol with
      | some s => some (inputs.map (fun row => row.map (fun t => t == s)))
      | none => (none : Option Mask)) =
      e.mask_symbol.map
        (fun s => inputs.map (fun row => row.map (fun t => t == s))) := by
    cases e.mask_symbol <;> rfl
  unfold TransformerAttentionEncoder.forward
  simp only [hpm, encoder_fold_unroll, List.nil_append]
  exact ⟨by simp, forall_set_mask _ e.blocks, by simp, by simp, by simp⟩

/-- Witness for C5 at a concrete one-block encoder over `T = ℤ` with
`mask_symbol = 0` (the `PAD` symbol). -/
theorem encoder_forward_masks_witness :
    (TransformerAttentionEncoder.forward
      { mask_symbol := some 0,
        embed := fun rows => (rows.map List.sum).sum,
        blocks := [{ mask_q := none, mask_k := none,
                     core := fun _ _ x => x + 1 }] }
      [[4, 0], [0, 7]]).2.mask =
      some [[false, true], [true, false]] ∧
    (TransformerAttentionEncoder.forward
      { mask_symbol := some 0,
        embed := fun rows => (rows.map List.sum).sum,
        blocks := [{ mask_q := none, mask_k := none,
                     core := fun _ _ x => x + 1 }] }
      [[4, 0], [0, 7]]).2.batch_first = true :=
  ⟨((encoder_forward_masks ℤ
      { mask_symbol := some 0,
        embed := fun rows => (rows.map List.sum).sum,
        blocks := [{ mask_q := none, mask_k := none,
                     core := fun _ _ x => x + 1 }] }
      [[4, 0], [0, 7]]).1).trans (by decide),
   (encoder_forward_masks ℤ
      { mask_symbol := some 0,
        embed := fun rows => (rows.map List.sum).sum,
        blocks := [{ mask_q := none, mask_k := none,
                     core := fun _ _ x => x + 1 }] }
      [[4, 0], [0, 7]]).2.2.2.2⟩

end Seq2Seq.Enc

namespace Seq2Seq.WMT

/-- C9: for every split outside train/dev/test, the non-train branch never
assigns the local `prefix` variable, so `WMT16_de_en.__init__` raises
`UnboundLocalError` instead of constructing a dataset. -/
theorem wmt_unknown_split_errors (mkML : MLOptions → MLDataset)
    (root split : String) (mp : Bool) (tk : String) (ns : ℕ)
    (cf vf tks : Option String)
    (h1 : split ≠ "train") (h2 : split ≠ "dev") (h3 : split ≠ "test") :
    WMT16_de_en.init mkML root split mp tk ns cf vf tks =
      .error "UnboundLocalError" := by
  simp [WMT16_de_en.init, h1, h2, h3]

/-- Witness for C9 at the concrete split `"valid"`. -/
theorem wmt_unknown_split_errors_witness :
    WMT16_de_en.init (fun _ => ⟨none, none, none⟩) "data" "valid" false
      "bpe" 32000 none none none = .error "UnboundLocalError" :=
  wmt_unknown_split_errors (fun _ => ⟨none, none, none⟩) "data" "valid"
    false "bpe" 32000 none none none
    (by decide) (by decide) (by decide)

end Seq2Seq.WMT
